import Mathlib

/-!
Shallow embedding of the gym administration backend's core logic:
the membership status reconciler (`checkMemberStatus`), the payment
helper `calculateDueAmount`, the reporting projections (expiring
memberships, financial summary, attendance summary), and the calendar
month addition used for `plan_end_date` (JavaScript `Date.setMonth`
semantics).

Dates are modelled as (year, month, day) triples with 0-based months,
mirroring JavaScript `Date`; comparisons of date values go through a
monotone integer code, matching timestamp comparison at day
granularity. Machine numbers are modelled as `Int` (or `ℚ` where the
source divides).
-/

namespace Gym

/-- A calendar date as JavaScript `Date` components: `month` is 0-based
(January = 0). -/
structure Date where
  year : Int
  month : Int
  day : Int
deriving DecidableEq, Repr

/-- Monotone integer code of a date (valid dates have `0 ≤ month < 12`,
`1 ≤ day ≤ 31`), standing in for the JS timestamp at day granularity. -/
def Date.code (d : Date) : Int :=
  (d.year * 12 + d.month) * 32 + d.day

/-- Gregorian leap-year rule, as used by JavaScript `Date`. -/
def isLeapYear (y : Int) : Bool :=
  (y % 4 == 0 && y % 100 != 0) || y % 400 == 0

/-- Number of days of 0-based month `m` in year `y`. -/
def daysInMonth (y m : Int) : Int :=
  if m = 1 then (if isLeapYear y then 29 else 28)
  else if m = 3 ∨ m = 5 ∨ m = 8 ∨ m = 10 then 30
  else 31

/-- Year component of the month arithmetic target of `setMonth`:
adding `k` months to `d` aims at this year (floor carry of months into
years; `/` on `Int` is Euclidean division, which agrees with floor
division for the positive divisor 12). -/
def targetYear (d : Date) (k : Int) : Int :=
  d.year + (d.month + k) / 12

/-- Month component of the month arithmetic target of `setMonth`. -/
def targetMonth (d : Date) (k : Int) : Int :=
  (d.month + k) % 12

/-- JavaScript `date.setMonth(date.getMonth() + k)`: the month index is
shifted by `k` with year carry; the day-of-month is kept, and if it
exceeds the target month's length the date overflows into the following
month by the epoch-day arithmetic of `MakeDay` (a source day ≤ 31
overflows by at most 3 days, so a single carry step is exact). -/
def addMonths (d : Date) (k : Int) : Date :=
  let y := targetYear d k
  let m := targetMonth d k
  if d.day ≤ daysInMonth y m then ⟨y, m, d.day⟩
  else ⟨y + (m + 1) / 12, (m + 1) % 12, d.day - daysInMonth y m⟩

/-- `calculateDueAmount` from `utils/helpers`:
`Math.max(0, totalAmount - amountPaid)`. -/
def calculateDueAmount (totalAmount amountPaid : Int) : Int :=
  max 0 (totalAmount - amountPaid)

/-- A payment row as selected by the reconciler's query
(`id, amount_paid, due_amount, payment_date, notes`); `payment_date`
is its timestamp. -/
structure Payment where
  amount_paid : Int
  due_amount : Int
  payment_date : Int
  notes : String
deriving DecidableEq, Repr

/-- A member row as selected by the reconciler's query, with the nested
payment history. `status` is the stored free-form string
(`active` / `inactive`). -/
structure Member where
  id : Nat
  name : String
  status : String
  plan_id : Nat
  plan_end_date : Date
  payments : List Payment
deriving DecidableEq, Repr

/-- An entry of the reconciler's `updatedMembers` response array. -/
structure UpdateRec where
  id : Nat
  name : String
  reason : String
  new_plan_end_date : Option Date
deriving DecidableEq, Repr

/-- `payments.filter(p => p.notes !== 'Admission Fee')`: only
plan-related payments count toward expiry decisions. -/
def planPayments (ps : List Payment) : List Payment :=
  ps.filter (fun p => p.notes ≠ "Admission Fee")

/-- `planPayments.sort((a, b) => dateB - dateA)[0]`: the first (in
original order, as the sort is stable) payment with maximal
`payment_date`, or `none` when the list is empty. -/
def latestPayment (ps : List Payment) : Option Payment :=
  ps.foldl (fun acc p =>
    match acc with
    | none => some p
    | some q => if q.payment_date < p.payment_date then some p else acc) none

/-- The reconciler's expired-with-dues action: write `status = 'inactive'`
only when the member is not already inactive. -/
def setInactive (m : Member) : Member × Option UpdateRec :=
  if m.status ≠ "inactive" then
    ({ m with status := "inactive" },
     some ⟨m.id, m.name, "Plan expired with unpaid dues, set to inactive", none⟩)
  else (m, none)

/-- The reconciler's fully-paid extension action: look up the plan's
`duration_in_months`; when the lookup succeeds and the duration is
truthy (non-zero), extend `plan_end_date` by that many calendar months
via `setMonth` and write `status = 'active'`; otherwise do nothing
(missing plan or falsy duration is skipped). -/
def extendPlan (lookup : Nat → Option Int) (m : Member) : Member × Option UpdateRec :=
  match lookup m.plan_id with
  | none => (m, none)
  | some dur =>
    if dur ≠ 0 then
      ({ m with plan_end_date := addMonths m.plan_end_date dur, status := "active" },
       some ⟨m.id, m.name, "Plan extended after full payment, set to active",
             some (addMonths m.plan_end_date dur)⟩)
    else (m, none)

/-- Per-member body of `checkMemberStatus`: returns the member's state
after the iteration together with the update record pushed to
`updatedMembers` (or `none` when no write was issued). `lookup` is the
`plans` table read (`plan_id ↦ duration_in_months`). -/
def reconcileMember (today : Date) (lookup : Nat → Option Int) (m : Member) :
    Member × Option UpdateRec :=
  if m.plan_end_date.code < today.code then
    -- plan has expired
    match latestPayment (planPayments m.payments) with
    | none => setInactive m
    | some p =>
      if 0 < p.due_amount then setInactive m
      else if p.due_amount = 0 then extendPlan lookup m
      else (m, none)
  else
    -- plan is still valid: reactivate an inactive member with no dues
    if m.status = "inactive" then
      match latestPayment (planPayments m.payments) with
      | none => (m, none)
      | some p =>
        if p.due_amount = 0 then
          ({ m with status := "active" },
           some ⟨m.id, m.name, "All dues paid and plan valid, set to active", none⟩)
        else (m, none)
    else (m, none)

/-- The full reconciler sweep over a tenant's member list: final member
states and the `updatedMembers` array. -/
def checkMemberStatus (today : Date) (lookup : Nat → Option Int) (ms : List Member) :
    List Member × List UpdateRec :=
  (ms.map (fun m => (reconcileMember today lookup m).1),
   ms.filterMap (fun m => (reconcileMember today lookup m).2))

/-- `totalUpdated` of the reconciler's response. -/
def totalUpdated (today : Date) (lookup : Nat → Option Int) (ms : List Member) : Nat :=
  (checkMemberStatus today lookup ms).2.length

/-! ### Reporting projections (`reportController.js`) -/

/-- The day window selected by the `timeframe` query parameter of
`getExpiringMembers` (`switch (timeframe)`); `stop` is the inclusive
horizon in days. Any unrecognised or absent timeframe falls to the
`default` case. -/
structure DayWindow where
  start : Int
  stop : Int
deriving DecidableEq, Repr

/-- `switch (timeframe) { case '3days': ... default: { start: 1, end: 3 } }`. -/
def timeframeToDays (timeframe : Option String) : DayWindow :=
  match timeframe with
  | some "3days" => ⟨1, 3⟩
  | some "7days" => ⟨4, 7⟩
  | some "15days" => ⟨8, 15⟩
  | some "30days" => ⟨16, 30⟩
  | _ => ⟨1, 3⟩

/-- A member row as the reporting queries see it; `plan_end_day` is the
`plan_end_date` as a day number and `dob` an optional date of birth.
Every row carries its tenant's `gym_id`. -/
structure ReportMember where
  gym_id : Nat
  status : String
  dob : Option Int
  plan_end_day : Int
deriving DecidableEq, Repr

/-- `getExpiringMembers` (reportController): selects members with
`status = 'active'` and `plan_end_date` between
`today + (start − 1)` (start of day) and `today + end` (end of day),
then maps each to its `days_remaining = plan_end_date − today`.
The query carries no `gym_id` filter. -/
def getExpiringMembers (today : Int) (timeframe : Option String)
    (rows : List ReportMember) : List (ReportMember × Int) :=
  let w := timeframeToDays timeframe
  (rows.filter (fun r => r.status = "active" ∧
      today + (w.start - 1) ≤ r.plan_end_day ∧ r.plan_end_day ≤ today + w.stop)).map
    (fun r => (r, r.plan_end_day - today))

/-- `getBirthdayMembers` (reportController): selects members with
`status = 'active'` and a non-null `dob`. The query carries no `gym_id`
filter. -/
def getBirthdayMembersQuery (rows : List ReportMember) : List ReportMember :=
  rows.filter (fun r => r.status = "active" ∧ r.dob ≠ none)

/-- `downloadReport` (reportController): for `type = 'active'` or
`'inactive'` filters members by that status, otherwise returns all.
The query carries no `gym_id` filter. -/
def downloadReportQuery (type_ : String) (rows : List ReportMember) : List ReportMember :=
  if type_ = "active" then rows.filter (fun r => r.status = "active")
  else if type_ = "inactive" then rows.filter (fun r => r.status = "inactive")
  else rows

/-- An item of the stored function's result in the second
expiring-memberships endpoint (`getExpiringMemberships`). -/
structure ExpiryItem where
  member_id : Nat
  days_remaining : Int
deriving DecidableEq, Repr

/-- `const { days = 15 } = req.query` of `getExpiringMemberships`:
default horizon of the days-parameter endpoint. -/
def defaultExpiringDays : Int := 15

/-- The `ranges` grouping of `getExpiringMemberships`:
`critical: ≤ 3`, `warning: > 3 ∧ ≤ 7`, `upcoming: > 7`. -/
def expiryRanges (data : List ExpiryItem) :
    List ExpiryItem × List ExpiryItem × List ExpiryItem :=
  (data.filter (fun i => i.days_remaining ≤ 3),
   data.filter (fun i => 3 < i.days_remaining ∧ i.days_remaining ≤ 7),
   data.filter (fun i => 7 < i.days_remaining))

/-- `collection_rate` of `getFinancialSummaryReport`:
`total_billed > 0 ? (total_received / total_billed) * 100 : 0`. -/
def collectionRate (total_received total_billed : ℚ) : ℚ :=
  if 0 < total_billed then total_received / total_billed * 100 else 0

/-- `attendance_percentage` of `getAttendanceSummaryReport`:
`total > 0 ? (present / total) * 100 : 0`. -/
def attendancePercentage (present total : ℚ) : ℚ :=
  if 0 < total then present / total * 100 else 0

/-- The reactivation condition of the valid-plan branch: the member is
currently `inactive` and the latest plan payment exists with
`due_amount === 0`. -/
def reactivationDue (m : Member) : Bool :=
  m.status == "inactive" &&
    match latestPayment (planPayments m.payments) with
    | none => false
    | some p => p.due_amount == 0

/-! ## Theorems -/

/-- Every month has between 28 and 31 days. -/
theorem daysInMonth_bounds (y m : Int) :
    28 ≤ daysInMonth y m ∧ daysInMonth y m ≤ 31 := by
  unfold daysInMonth
  split_ifs <;> omega

/-- C6: `calculateDueAmount` equals `max 0 (total − paid)`, never
returns a negative value for any inputs, and maps `(500, 700)` to 0. -/
theorem calculateDueAmount_spec (totalAmount amountPaid : Int) :
    calculateDueAmount totalAmount amountPaid = max 0 (totalAmount - amountPaid) ∧
    0 ≤ calculateDueAmount totalAmount amountPaid ∧
    calculateDueAmount 500 700 = 0 :=
  ⟨rfl, le_max_left _ _, by decide⟩

/-- C8: the financial summary's collection rate is
`received / billed * 100` guarded to 0 when billed is 0, and each
member's attendance percentage is `present / total * 100` guarded to 0
when the total record count is 0. -/
theorem zero_denominator_guards (total_received total_billed present total : ℚ) :
    (total_billed = 0 → collectionRate total_received total_billed = 0) ∧
    (0 < total_billed →
      collectionRate total_received total_billed = total_received / total_billed * 100) ∧
    (total = 0 → attendancePercentage present total = 0) ∧
    (0 < total → attendancePercentage present total = present / total * 100) := by
  refine ⟨fun h => ?_, fun h => ?_, fun h => ?_, fun h => ?_⟩ <;>
    simp [collectionRate, attendancePercentage, h]

/-- Witness for C8 at `(50, 0)` and `(3, 4)`. -/
theorem zero_denominator_guards_witness :
    collectionRate 50 0 = 0 ∧ attendancePercentage 3 4 = 3 / 4 * 100 :=
  ⟨(zero_denominator_guards 50 0 3 4).1 rfl,
   (zero_denominator_guards 50 0 3 4).2.2.2 (by norm_num)⟩

/-- C10: calendar month addition follows JavaScript `Date.setMonth`:
when the source day-of-month exists in the target month it is
preserved (and the result is exactly the target month); when it does
not, the result lands in the month after the target month, offset by
the overage, rather than clamping to the target month's last day. -/
theorem addMonths_setMonth_semantics (d : Date) (k : Int)
    (hday1 : 1 ≤ d.day) (hday31 : d.day ≤ 31) :
    (d.day ≤ daysInMonth (targetYear d k) (targetMonth d k) →
      addMonths d k = ⟨targetYear d k, targetMonth d k, d.day⟩) ∧
    (daysInMonth (targetYear d k) (targetMonth d k) < d.day →
      (addMonths d k).year * 12 + (addMonths d k).month
          = targetYear d k * 12 + targetMonth d k + 1 ∧
      (addMonths d k).day = d.day - daysInMonth (targetYear d k) (targetMonth d k) ∧
      1 ≤ (addMonths d k).day ∧
      (addMonths d k).day ≤ daysInMonth (addMonths d k).year (addMonths d k).month) := by
  constructor
  · intro h
    unfold addMonths
    rw [if_pos h]
  · intro h
    unfold addMonths
    rw [if_neg (not_le.mpr h)]
    have hq := Int.ediv_add_emod (targetMonth d k + 1) 12
    have hr0 : 0 ≤ (targetMonth d k + 1) % 12 := Int.emod_nonneg _ (by omega)
    have hr12 : (targetMonth d k + 1) % 12 < 12 := Int.emod_lt_of_pos _ (by omega)
    have hb := daysInMonth_bounds (targetYear d k) (targetMonth d k)
    have hb2 := daysInMonth_bounds (targetYear d k + (targetMonth d k + 1) / 12)
      ((targetMonth d k + 1) % 12)
    dsimp only
    refine ⟨by omega, rfl, by omega, by omega⟩

/-- Witness for C10: 2025-01-31 plus one month overflows past February
(28 days in 2025) to 2025-03-03. -/
theorem addMonths_setMonth_semantics_witness :
    daysInMonth (targetYear ⟨2025, 0, 31⟩ 1) (targetMonth ⟨2025, 0, 31⟩ 1) < 31 ∧
    ((addMonths ⟨2025, 0, 31⟩ 1).year * 12 + (addMonths ⟨2025, 0, 31⟩ 1).month
        = targetYear ⟨2025, 0, 31⟩ 1 * 12 + targetMonth ⟨2025, 0, 31⟩ 1 + 1 ∧
      (addMonths ⟨2025, 0, 31⟩ 1).day
          = 31 - daysInMonth (targetYear ⟨2025, 0, 31⟩ 1) (targetMonth ⟨2025, 0, 31⟩ 1) ∧
      1 ≤ (addMonths ⟨2025, 0, 31⟩ 1).day ∧
      (addMonths ⟨2025, 0, 31⟩ 1).day
          ≤ daysInMonth (addMonths ⟨2025, 0, 31⟩ 1).year (addMonths ⟨2025, 0, 31⟩ 1).month) :=
  ⟨by decide, (addMonths_setMonth_semantics ⟨2025, 0, 31⟩ 1 (by decide) (by decide)).2 (by decide)⟩

/-- C1: a member whose plan has expired and who has no qualifying plan
payment, or whose latest plan payment has dues outstanding, ends up
`inactive`; the status write (update record) is issued exactly when the
member was not already `inactive`. -/
theorem expired_unpaid_sets_inactive (today : Date) (lookup : Nat → Option Int) (m : Member)
    (hexp : m.plan_end_date.code < today.code)
    (hdue : latestPayment (planPayments m.payments) = none ∨
      ∃ p, latestPayment (planPayments m.payments) = some p ∧ 0 < p.due_amount) :
    (reconcileMember today lookup m).1.status = "inactive" ∧
    ((reconcileMember today lookup m).2 ≠ none ↔ m.status ≠ "inactive") := by
  rcases hdue with h | ⟨p, hp, hgt⟩ <;>
    [simp only [reconcileMember, hexp, if_true, h];
     simp only [reconcileMember, hexp, if_true, hp, if_pos hgt]] <;>
  · unfold setInactive
    by_cases hs : m.status = "inactive" <;> simp [hs]

/-- Witness for C1: an expired member with no payments at all is set
inactive with an update record. -/
theorem expired_unpaid_sets_inactive_witness :
    (⟨2024, 0, 1⟩ : Date).code < (⟨2024, 5, 1⟩ : Date).code ∧
    ((reconcileMember ⟨2024, 5, 1⟩ (fun _ => none)
        ⟨1, "a", "active", 1, ⟨2024, 0, 1⟩, []⟩).1.status = "inactive" ∧
      ((reconcileMember ⟨2024, 5, 1⟩ (fun _ => none)
          ⟨1, "a", "active", 1, ⟨2024, 0, 1⟩, []⟩).2 ≠ none ↔
        (⟨1, "a", "active", 1, ⟨2024, 0, 1⟩, []⟩ : Member).status ≠ "inactive")) :=
  ⟨by decide, expired_unpaid_sets_inactive ⟨2024, 5, 1⟩ (fun _ => none)
    ⟨1, "a", "active", 1, ⟨2024, 0, 1⟩, []⟩ (by decide) (Or.inl (by decide))⟩

/-- C2: a member whose plan has expired and whose latest plan payment is
fully settled has the plan extended by the referenced plan's
`duration_in_months` counted from the current `plan_end_date`, and the
status set to `active`. -/
theorem expired_paid_extends_plan (today : Date) (lookup : Nat → Option Int) (m : Member)
    (p : Payment) (dur : Int)
    (hexp : m.plan_end_date.code < today.code)
    (hlat : latestPayment (planPayments m.payments) = some p)
    (hdue : p.due_amount = 0)
    (hplan : lookup m.plan_id = some dur) (hdur : dur ≠ 0) :
    (reconcileMember today lookup m).1.status = "active" ∧
    (reconcileMember today lookup m).1.plan_end_date = addMonths m.plan_end_date dur ∧
    (reconcileMember today lookup m).2 = some ⟨m.id, m.name,
        "Plan extended after full payment, set to active",
        some (addMonths m.plan_end_date dur)⟩ := by
  simp [reconcileMember, hexp, hlat, hdue, extendPlan, hplan, hdur]

/-- Witness for C2: the spec's scenario — plan ended 2024-02-01, today
2024-02-15, a settled payment, one-month plan — yields status `active`
and plan end 2024-03-01. -/
theorem expired_paid_extends_plan_witness :
    (reconcileMember ⟨2024, 1, 15⟩ (fun _ => some 1)
        ⟨1, "a", "active", 1, ⟨2024, 1, 1⟩, [⟨1000, 0, 5, "renewal"⟩]⟩).1.status = "active" ∧
    (reconcileMember ⟨2024, 1, 15⟩ (fun _ => some 1)
        ⟨1, "a", "active", 1, ⟨2024, 1, 1⟩, [⟨1000, 0, 5, "renewal"⟩]⟩).1.plan_end_date
      = addMonths ⟨2024, 1, 1⟩ 1 ∧
    (reconcileMember ⟨2024, 1, 15⟩ (fun _ => some 1)
        ⟨1, "a", "active", 1, ⟨2024, 1, 1⟩, [⟨1000, 0, 5, "renewal"⟩]⟩).2
      = some ⟨1, "a", "Plan extended after full payment, set to active",
              some (addMonths ⟨2024, 1, 1⟩ 1)⟩ :=
  expired_paid_extends_plan ⟨2024, 1, 15⟩ (fun _ => some 1)
    ⟨1, "a", "active", 1, ⟨2024, 1, 1⟩, [⟨1000, 0, 5, "renewal"⟩]⟩
    ⟨1000, 0, 5, "renewal"⟩ 1 (by decide) (by decide) (by decide) rfl (by decide)

/-- C3: when the plan has not expired, `plan_end_date` is unchanged and
the status is unchanged unless the member is currently `inactive` and
the latest plan payment exists with `due_amount = 0`, in which case the
status becomes `active`. -/
theorem valid_plan_branch_behaviour (today : Date) (lookup : Nat → Option Int) (m : Member)
    (hval : ¬ m.plan_end_date.code < today.code) :
    (reconcileMember today lookup m).1.plan_end_date = m.plan_end_date ∧
    (reconcileMember today lookup m).1.status
      = (if reactivationDue m then "active" else m.status) ∧
    (reactivationDue m = true ↔ m.status = "inactive" ∧
      ∃ p, latestPayment (planPayments m.payments) = some p ∧ p.due_amount = 0) := by
  refine ⟨?_, ?_, ?_⟩
  · unfold reconcileMember
    rw [if_neg hval]
    by_cases hs : m.status = "inactive" <;>
      cases hl : latestPayment (planPayments m.payments) <;>
        simp [hs, hl] <;> split_ifs <;> simp
  · unfold reconcileMember reactivationDue
    rw [if_neg hval]
    by_cases hs : m.status = "inactive" <;>
      cases hl : latestPayment (planPayments m.payments) <;>
        simp [hs, hl] <;> split_ifs <;> simp_all
  · unfold reactivationDue
    by_cases hs : m.status = "inactive" <;>
      cases hl : latestPayment (planPayments m.payments) <;> simp [hs, hl]

/-- Witness for C3: the spec's scenario — inactive member, plan end in
the future, settled latest payment — is reactivated with the plan end
unchanged. -/
theorem valid_plan_branch_behaviour_witness :
    (reconcileMember ⟨2024, 1, 15⟩ (fun _ => some 1)
        ⟨1, "a", "inactive", 1, ⟨2024, 3, 1⟩, [⟨1000, 0, 5, "renewal"⟩]⟩).1.plan_end_date
      = ⟨2024, 3, 1⟩ ∧
    (reconcileMember ⟨2024, 1, 15⟩ (fun _ => some 1)
        ⟨1, "a", "inactive", 1, ⟨2024, 3, 1⟩, [⟨1000, 0, 5, "renewal"⟩]⟩).1.status
      = (if reactivationDue ⟨1, "a", "inactive", 1, ⟨2024, 3, 1⟩, [⟨1000, 0, 5, "renewal"⟩]⟩
          then "active" else "inactive") :=
  ⟨(valid_plan_branch_behaviour ⟨2024, 1, 15⟩ (fun _ => some 1)
      ⟨1, "a", "inactive", 1, ⟨2024, 3, 1⟩, [⟨1000, 0, 5, "renewal"⟩]⟩ (by decide)).1,
   (valid_plan_branch_behaviour ⟨2024, 1, 15⟩ (fun _ => some 1)
      ⟨1, "a", "inactive", 1, ⟨2024, 3, 1⟩, [⟨1000, 0, 5, "renewal"⟩]⟩ (by decide)).2.1⟩

/-- C5: payment histories that agree after the `Admission Fee` filter
produce the same resulting status, plan end date and update record —
admission-fee-tagged payments never influence the decision. -/
theorem admission_fees_never_influence (today : Date) (lookup : Nat → Option Int)
    (m : Member) (ps2 : List Payment)
    (h : planPayments m.payments = planPayments ps2) :
    (reconcileMember today lookup m).1.status
        = (reconcileMember today lookup { m with payments := ps2 }).1.status ∧
    (reconcileMember today lookup m).1.plan_end_date
        = (reconcileMember today lookup { m with payments := ps2 }).1.plan_end_date ∧
    (reconcileMember today lookup m).2
        = (reconcileMember today lookup { m with payments := ps2 }).2 := by
  have h2 : planPayments ({ m with payments := ps2 } : Member).payments
      = planPayments m.payments := h.symm
  unfold reconcileMember setInactive extendPlan
  rw [h2]
  by_cases hc : m.plan_end_date.code < today.code <;>
    by_cases hs : m.status = "inactive" <;>
      cases hl : latestPayment (planPayments m.payments) <;>
        cases hpl : lookup m.plan_id <;>
          simp [hc, hs, hl, hpl] <;> split_ifs <;> simp_all

/-- Witness for C5: dropping an `Admission Fee` payment from the history
changes nothing in the decision. -/
theorem admission_fees_never_influence_witness :
    planPayments [⟨500, 0, 1, "Admission Fee"⟩, ⟨1000, 0, 5, "renewal"⟩]
        = planPayments [⟨1000, 0, 5, "renewal"⟩] ∧
    (reconcileMember ⟨2024, 5, 1⟩ (fun _ => some 1)
        ⟨1, "a", "active", 1, ⟨2024, 0, 1⟩,
          [⟨500, 0, 1, "Admission Fee"⟩, ⟨1000, 0, 5, "renewal"⟩]⟩).2
      = (reconcileMember ⟨2024, 5, 1⟩ (fun _ => some 1)
          ⟨1, "a", "active", 1, ⟨2024, 0, 1⟩, [⟨1000, 0, 5, "renewal"⟩]⟩).2 :=
  ⟨by decide,
   (admission_fees_never_influence ⟨2024, 5, 1⟩ (fun _ => some 1)
      ⟨1, "a", "active", 1, ⟨2024, 0, 1⟩,
        [⟨500, 0, 1, "Admission Fee"⟩, ⟨1000, 0, 5, "renewal"⟩]⟩
      [⟨1000, 0, 5, "renewal"⟩] (by decide)).2.2⟩

/-- C4 counterexample: the reconciler is not idempotent as claimed. A
member whose plan ended 2024-01-01, with a fully settled payment and a
one-month plan, run against today = 2024-06-01, is extended to
2024-02-01 by the first run, and the second run — with no intervening
data change — extends it again (a second update is reported and the
state changes again). -/
theorem reconciler_not_idempotent :
    (reconcileMember ⟨2024, 5, 1⟩ (fun _ => some 1)
        (reconcileMember ⟨2024, 5, 1⟩ (fun _ => some 1)
          ⟨1, "a", "active", 1, ⟨2024, 0, 1⟩, [⟨1000, 0, 5, "renewal"⟩]⟩).1).2 ≠ none ∧
    (reconcileMember ⟨2024, 5, 1⟩ (fun _ => some 1)
        (reconcileMember ⟨2024, 5, 1⟩ (fun _ => some 1)
          ⟨1, "a", "active", 1, ⟨2024, 0, 1⟩, [⟨1000, 0, 5, "renewal"⟩]⟩).1).1
      ≠ (reconcileMember ⟨2024, 5, 1⟩ (fun _ => some 1)
          ⟨1, "a", "active", 1, ⟨2024, 0, 1⟩, [⟨1000, 0, 5, "renewal"⟩]⟩).1 := by
  decide

/-- C4 (amended): the reconciler is idempotent per member except when an
extension leaves the plan still expired: whenever the first run's
resulting `plan_end_date` is not before today, or the first run set the
member `inactive`, or the first run issued no update, the second run
returns the member unchanged and reports no update. -/
theorem reconciler_idempotent_when_caught_up (today : Date) (lookup : Nat → Option Int)
    (m : Member)
    (h : ¬ (reconcileMember today lookup m).1.plan_end_date.code < today.code ∨
      (reconcileMember today lookup m).1.status = "inactive" ∨
      (reconcileMember today lookup m).2 = none) :
    reconcileMember today lookup (reconcileMember today lookup m).1
      = ((reconcileMember today lookup m).1, none) := by
  by_cases hc : m.plan_end_date.code < today.code
  · cases hl : latestPayment (planPayments m.payments) with
    | none =>
      by_cases hs : m.status = "inactive"
      · have e1 : reconcileMember today lookup m = (m, none) := by
          simp [reconcileMember, hc, hl, setInactive, hs]
        rw [e1]
        exact e1
      · have e1 : reconcileMember today lookup m = ({ m with status := "inactive" },
            some ⟨m.id, m.name, "Plan expired with unpaid dues, set to inactive", none⟩) := by
          simp [reconcileMember, hc, hl, setInactive, hs]
        rw [e1]
        simp [reconcileMember, hc, hl, setInactive]
    | some p =>
      rcases lt_trichotomy p.due_amount 0 with hd | hd | hd
      · have e1 : reconcileMember today lookup m = (m, none) := by
          simp only [reconcileMember, hc, if_true, hl]
          rw [if_neg (by omega), if_neg (by omega)]
        rw [e1]
        exact e1
      · cases hpl : lookup m.plan_id with
        | none =>
          have e1 : reconcileMember today lookup m = (m, none) := by
            simp [reconcileMember, hc, hl, hd, extendPlan, hpl]
          rw [e1]
          exact e1
        | some dur =>
          by_cases hdur : dur = 0
          · have e1 : reconcileMember today lookup m = (m, none) := by
              simp [reconcileMember, hc, hl, hd, extendPlan, hpl, hdur]
            rw [e1]
            exact e1
          · have e1 : reconcileMember today lookup m
                = ({ m with
                      plan_end_date := addMonths m.plan_end_date dur,
                      status := "active" },
                   some ⟨m.id, m.name, "Plan extended after full payment, set to active",
                     some (addMonths m.plan_end_date dur)⟩) := by
              simp [reconcileMember, hc, hl, hd, extendPlan, hpl, hdur]
            rw [e1] at h
            simp only [e1]
            have hvalid : ¬ (addMonths m.plan_end_date dur).code < today.code := by
              simpa using h
            simp [reconcileMember, hvalid]
      · have e1 : reconcileMember today lookup m = setInactive m := by
          simp only [reconcileMember, hc, if_true, hl]
          rw [if_pos hd]
        by_cases hs : m.status = "inactive"
        · have e2 : reconcileMember today lookup m = (m, none) := by
            rw [e1]; simp [setInactive, hs]
          rw [e2]
          exact e2
        · have e2 : reconcileMember today lookup m = ({ m with status := "inactive" },
              some ⟨m.id, m.name, "Plan expired with unpaid dues, set to inactive", none⟩) := by
            rw [e1]; simp [setInactive, hs]
          rw [e2]
          simp only [reconcileMember, setInactive]
          have : ({ m with status := "inactive" } : Member).plan_end_date.code
              < today.code := hc
          rw [if_pos this, hl]
          simp [hd]
  · by_cases hs : m.status = "inactive"
    · cases hl : latestPayment (planPayments m.payments) with
      | none =>
        have e1 : reconcileMember today lookup m = (m, none) := by
          simp [reconcileMember, hc, hs, hl]
        rw [e1]
        exact e1
      | some p =>
        by_cases hd : p.due_amount = 0
        · have e1 : reconcileMember today lookup m = ({ m with status := "active" },
              some ⟨m.id, m.name, "All dues paid and plan valid, set to active", none⟩) := by
            simp [reconcileMember, hc, hs, hl, hd]
          rw [e1]
          simp [reconcileMember, hc]
        · have e1 : reconcileMember today lookup m = (m, none) := by
            simp [reconcileMember, hc, hs, hl, hd]
          rw [e1]
          exact e1
    · have e1 : reconcileMember today lookup m = (m, none) := by
        simp [reconcileMember, hc, hs]
      rw [e1]
      exact e1

/-- Witness for C4 (amended): a reactivated member (valid plan,
settled latest payment) is a fixed point of the second run. -/
theorem reconciler_idempotent_when_caught_up_witness :
    (¬ (reconcileMember ⟨2024, 1, 15⟩ (fun _ => some 1)
        ⟨1, "a", "inactive", 1, ⟨2024, 3, 1⟩,
          [⟨1000, 0, 5, "renewal"⟩]⟩).1.plan_end_date.code < (⟨2024, 1, 15⟩ : Date).code ∨
      (reconcileMember ⟨2024, 1, 15⟩ (fun _ => some 1)
        ⟨1, "a", "inactive", 1, ⟨2024, 3, 1⟩,
          [⟨1000, 0, 5, "renewal"⟩]⟩).1.status = "inactive" ∨
      (reconcileMember ⟨2024, 1, 15⟩ (fun _ => some 1)
        ⟨1, "a", "inactive", 1, ⟨2024, 3, 1⟩, [⟨1000, 0, 5, "renewal"⟩]⟩).2 = none) ∧
    reconcileMember ⟨2024, 1, 15⟩ (fun _ => some 1)
        (reconcileMember ⟨2024, 1, 15⟩ (fun _ => some 1)
          ⟨1, "a", "inactive", 1, ⟨2024, 3, 1⟩, [⟨1000, 0, 5, "renewal"⟩]⟩).1
      = ((reconcileMember ⟨2024, 1, 15⟩ (fun _ => some 1)
          ⟨1, "a", "inactive", 1, ⟨2024, 3, 1⟩, [⟨1000, 0, 5, "renewal"⟩]⟩).1, none) :=
  ⟨by decide,
   reconciler_idempotent_when_caught_up ⟨2024, 1, 15⟩ (fun _ => some 1)
     ⟨1, "a", "inactive", 1, ⟨2024, 3, 1⟩, [⟨1000, 0, 5, "renewal"⟩]⟩ (by decide)⟩

/-- C7: the report queries `getExpiringMembers`, `getBirthdayMembers`
and `downloadReport` select members with no `gym_id` filter, so a row
belonging to gym 2 is returned to a caller of gym 1 — a cross-tenant
read, contradicting the tenant-isolation invariant. -/
theorem report_queries_leak_across_tenants :
    getExpiringMembers 4 none [⟨2, "active", none, 5⟩]
        = [(⟨2, "active", none, 5⟩, 1)] ∧
    getBirthdayMembersQuery [⟨2, "active", some 100, 5⟩]
        = [⟨2, "active", some 100, 5⟩] ∧
    downloadReportQuery "active" [⟨2, "active", none, 5⟩]
        = [⟨2, "active", none, 5⟩] ∧
    (⟨2, "active", none, 5⟩ : ReportMember).gym_id ≠ 1 := by
  decide

/-- C9 counterexample: with no `timeframe` supplied, `getExpiringMembers`
falls to the `default` switch case, a 1–3-day window — its horizon is 3
days, not 15 or 30. -/
theorem expiring_default_horizon_is_three_days :
    timeframeToDays none = ⟨1, 3⟩ ∧
    (timeframeToDays none).stop ≠ 15 ∧ (timeframeToDays none).stop ≠ 30 := by
  decide

/-- C9 (amended): each member returned by the expiring report is active
with `days_remaining = plan_end_date − today`; the timeframe endpoint
defaults to the 1–3-day window when no timeframe is supplied, while the
days-parameter endpoint defaults to a 15-day horizon and buckets into
critical (≤ 3), warning (4–7) and upcoming (> 7). -/
theorem expiring_report_buckets_and_defaults :
    (∀ (today : Int) (tf : Option String) (rows : List ReportMember)
        (r : ReportMember) (dr : Int),
        (r, dr) ∈ getExpiringMembers today tf rows →
          r.status = "active" ∧ dr = r.plan_end_day - today) ∧
    timeframeToDays none = ⟨1, 3⟩ ∧
    defaultExpiringDays = 15 ∧
    (∀ (data : List ExpiryItem) (i : ExpiryItem),
        (i ∈ (expiryRanges data).1 ↔ i ∈ data ∧ i.days_remaining ≤ 3) ∧
        (i ∈ (expiryRanges data).2.1 ↔
          i ∈ data ∧ 3 < i.days_remaining ∧ i.days_remaining ≤ 7) ∧
        (i ∈ (expiryRanges data).2.2 ↔ i ∈ data ∧ 7 < i.days_remaining)) := by
  refine ⟨?_, rfl, rfl, ?_⟩
  · intro today tf rows r dr hmem
    simp only [getExpiringMembers, List.mem_map, List.mem_filter,
      decide_eq_true_eq, Prod.mk.injEq] at hmem
    obtain ⟨r', ⟨_, hact, _, _⟩, hr, hdr⟩ := hmem
    subst hr
    exact ⟨hact, hdr.symm⟩
  · intro data i
    refine ⟨?_, ?_, ?_⟩ <;>
      simp [expiryRanges, List.mem_filter, and_assoc]

/-- Witness for C9 (amended): a gym-2 active member due in one day is
reported active with `days_remaining = 1`. -/
theorem expiring_report_buckets_and_defaults_witness :
    ((⟨2, "active", none, 5⟩ : ReportMember), (1 : Int))
        ∈ getExpiringMembers 4 none [⟨2, "active", none, 5⟩] ∧
    (⟨2, "active", none, 5⟩ : ReportMember).status = "active" ∧
    (1 : Int) = (⟨2, "active", none, 5⟩ : ReportMember).plan_end_day - 4 :=
  ⟨by decide,
   expiring_report_buckets_and_defaults.1 4 none [⟨2, "active", none, 5⟩]
     ⟨2, "active", none, 5⟩ 1 (by decide)⟩

end Gym
